import Mathlib

/-!
Verification of the session-loading and statistics core of the
claude-code-history-viewer backend (src-tauri).

The Rust sources are shallowly embedded:

* JSON values (`serde_json::Value` / `simd_json` values) are modelled by the
  inductive `Json` below (numbers are modelled as the `u64`-representable
  naturals, the only ones the code ever reads via `as_u64`).
* One physical line of a JSONL session file is modelled by `Line`: either a
  whitespace-only line, or a raw record together with a *parse level* that
  says which of the code's four serde decoders accept the line.  The decoders
  are strictly nested by their field requirements:
    level 0 - malformed (no decoder accepts it),
    level 1 - `LineClassifier`        (type, isSidechain, isMeta),
    level 2 - `QuickLineClassifier`   (adds sessionId, timestamp as strings),
    level 3 - `SessionMetadataEntry`  (adds summary/toolUse/toolUseResult/message),
    level 4 - `RawLogEntry`           (the full typed record, strictest).
  A line at level n is accepted by every decoder of level ≤ n and rejected by
  every decoder of level > n.
* The two raw substring probes of the counting phase
  (`line.contains("\"toolUse\"") || ...` and the `"stderr"` probe) depend on
  the raw bytes of the line, not on the parsed record, so they are carried as
  explicit boolean fields of the record model.
-/

/-- Minimal model of a JSON value as probed by the Rust code
(`get`, `as_str`, `as_bool`, `as_u64`, `as_array`, `is_object`). -/
inductive Json where
  | null : Json
  | bool (b : Bool) : Json
  | num (n : Nat) : Json
  | str (s : String) : Json
  | arr (items : List Json) : Json
  | obj (fields : List (String × Json)) : Json

/-- Model of `serde_json::Value::get(key)`: `none` on non-objects, first
binding of the key otherwise. -/
def Json.getKey : Json → String → Option Json
  | .obj fields, k => (fields.find? (fun p => p.1 == k)).map Prod.snd
  | _, _ => none

/-- Model of `Value::as_str`. -/
def Json.asStr : Json → Option String
  | .str s => some s
  | _ => none

/-- Model of `Value::as_bool`. -/
def Json.asBool : Json → Option Bool
  | .bool b => some b
  | _ => none

/-- Model of `Value::as_u64` (numbers are modelled as the representable ones). -/
def Json.asNat : Json → Option Nat
  | .num n => some n
  | _ => none

/-- Model of `Value::as_array`. -/
def Json.asArr : Json → Option (List Json)
  | .arr items => some items
  | _ => none

/-- Model of `Value::is_object`. -/
def Json.isObj : Json → Bool
  | .obj _ => true
  | _ => false

/-- The fields of one on-disk record that the loader's decoders expose
(union of `LineClassifier`, `QuickLineClassifier` and `SessionMetadataEntry`
from `commands/session/load.rs`), together with the two raw substring probes
used by the counting phase. -/
structure RawRec where
  message_type : String
  session_id : Option String
  timestamp : Option String
  is_sidechain : Option Bool
  is_meta : Option Bool
  summary : Option String
  tool_use : Option Json
  tool_use_result : Option Json
  content : Option Json
  raw_tool_use_probe : Bool
  raw_stderr_probe : Bool

/-- One physical line of a JSONL file: blank (whitespace only), or a record
with the parse level described in the header comment. -/
inductive Line where
  | blank : Line
  | raw (lvl : Nat) (r : RawRec) : Line

/-- `SYSTEM_MESSAGE_TYPES` from `commands/session/load.rs`. -/
def SYSTEM_MESSAGE_TYPES : List String :=
  ["progress", "queue-operation", "file-history-snapshot", "system"]

/-- `is_system_message_type` from `commands/session/load.rs`. -/
def is_system_message_type (t : String) : Bool :=
  SYSTEM_MESSAGE_TYPES.contains t

/-- `classify_line_fast` from `commands/session/load.rs` (lines 1116-1142):
whitespace-only lines and lines the minimal `LineClassifier` decoder rejects
are not counted; then summary records, system-typed records, meta records,
and (under the filter) sidechain records are rejected. -/
def classify_line_fast (l : Line) (exclude_sidechain : Bool) : Bool :=
  match l with
  | .blank => false
  | .raw lvl r =>
    if lvl < 1 then false
    else if r.message_type == "summary" then false
    else if is_system_message_type r.message_type then false
    else if r.is_meta.getD false then false
    else if exclude_sidechain && r.is_sidechain.getD false then false
    else true

/-- `get_session_message_count` from `commands/session/load.rs`
(lines 1239-1270): count the lines accepted by `classify_line_fast`. -/
def get_session_message_count (lines : List Line) (exclude_sidechain : Bool) : Nat :=
  (lines.filter (fun l => classify_line_fast l exclude_sidechain)).length

/-- Validity of a record in the sense claimed by C1 (spec §3): not a summary,
not system-excluded, not meta, and carrying at least one of sessionId or
timestamp; additionally not a sidechain record when the filter is on. -/
def spec_valid_record (exclude_sidechain : Bool) (r : RawRec) : Bool :=
  r.message_type != "summary" &&
  !(is_system_message_type r.message_type) &&
  !(r.is_meta.getD false) &&
  (r.session_id.isSome || r.timestamp.isSome) &&
  !(exclude_sidechain && r.is_sidechain.getD false)

/-- Number of records of a file that C1 calls valid. -/
def spec_valid_count (lines : List Line) (exclude_sidechain : Bool) : Nat :=
  lines.countP (fun l => match l with
    | .blank => false
    | .raw _ r => spec_valid_record exclude_sidechain r)

/-- Validity as actually enforced by `classify_line_fast`: identical to the
C1 notion except that the presence of `sessionId` or `timestamp` is NOT
required (the minimal `LineClassifier` decoder does not even read those
fields). -/
def amended_valid_record (exclude_sidechain : Bool) (r : RawRec) : Bool :=
  r.message_type != "summary" &&
  !(is_system_message_type r.message_type) &&
  !(r.is_meta.getD false) &&
  !(exclude_sidechain && r.is_sidechain.getD false)

/-- A record carrying only a `type` field: `{"type":"user"}`.  It decodes
under every decoder (level 4) but has neither sessionId nor timestamp. -/
def idlessUserRec : RawRec :=
  { message_type := "user"
    session_id := none
    timestamp := none
    is_sidechain := none
    is_meta := none
    summary := none
    tool_use := none
    tool_use_result := none
    content := none
    raw_tool_use_probe := false
    raw_stderr_probe := false }

/-- C1 counterexample: on the one-line file `{"type":"user"}` the command
returns 1, but the record is not valid in the claimed sense (it has neither
sessionId nor timestamp), so the claimed count is 0. -/
theorem c1_counterexample :
    get_session_message_count [Line.raw 4 idlessUserRec] false = 1 ∧
    spec_valid_count [Line.raw 4 idlessUserRec] false = 0 := by
  constructor <;> rfl

/-- C1 (amended): for every session file and flag, `get_session_message_count`
returns exactly the number of records that the minimal classifier decodes and
that are not summary-typed, not system-excluded, not meta, and not filtered
as sidechain — the presence of `sessionId` or `timestamp` is not required. -/
theorem c1_amended_count (lines : List Line) (exclude_sidechain : Bool) :
    get_session_message_count lines exclude_sidechain =
      lines.countP (fun l => match l with
        | .blank => false
        | .raw lvl r => decide (1 ≤ lvl) && amended_valid_record exclude_sidechain r) := by
  rw [get_session_message_count, ← List.countP_eq_length_filter]
  refine List.countP_congr (fun l _ => ?_)
  cases l with
  | blank => simp [classify_line_fast]
  | raw lvl r =>
    simp only [classify_line_fast, amended_valid_record]
    by_cases h1 : lvl < 1
    · simp [h1, Nat.lt_one_iff.mp h1]
    · have h1' : 1 ≤ lvl := Nat.le_of_not_lt h1
      simp only [if_neg h1, decide_eq_true h1', Bool.true_and]
      by_cases h2 : r.message_type == "summary"
      · simp [h2, bne, h2]
      · simp only [if_neg h2, bne]
        by_cases h3 : is_system_message_type r.message_type
        · simp [h3]
        · simp only [if_neg h3, h3]
          by_cases h4 : r.is_meta.getD false
          · simp [h4]
          · simp only [if_neg h4, h4]
            by_cases h5 : exclude_sidechain && r.is_sidechain.getD false
            · simp [h5]
            · simp [h5, h2]

/-! ## Session summaries and the per-file cache (`commands/session/load.rs`) -/

/-- `ClaudeSession` from `models.rs` / `models/session.rs`. -/
structure ClaudeSession where
  session_id : String
  actual_session_id : String
  file_path : String
  project_name : String
  message_count : Nat
  first_message_time : String
  last_message_time : String
  last_modified : String
  has_tool_use : Bool
  has_errors : Bool
  summary : Option String
deriving DecidableEq

/-- `CachedSessionMetadata` from `commands/session/load.rs`. -/
structure CachedSessionMetadata where
  modified_time : Nat
  file_size : Nat
  last_byte_offset : Nat
  session : Option ClaudeSession
  sidechain_count : Nat
  has_tool_use : Bool
  has_errors : Bool
deriving DecidableEq

/-- `IncrementalParseState` from `commands/session/load.rs`. -/
structure IncrementalParseState where
  start_offset : Nat
  message_count : Nat
  sidechain_count : Nat
  last_timestamp : Option String
  has_tool_use : Bool
  has_errors : Bool
  session_id : Option String
  first_timestamp : Option String
  summary : Option String
  first_user_content : Option String
deriving DecidableEq

/-- `FileParseStrategy` from `commands/session/load.rs` (the file path carried
by the Rust variants is dropped: it is the file being categorized). -/
inductive FileParseStrategy where
  | useCached (session : ClaudeSession) (sidechain_count : Nat) : FileParseStrategy
  | incremental (state : IncrementalParseState) : FileParseStrategy
  | fullParse : FileParseStrategy
deriving DecidableEq

/-- The `IncrementalParseState` built by `load_project_sessions`
(lines 643-657) from a cached entry whose session is present. -/
def incremental_state_of (cached : CachedSessionMetadata) (session : ClaudeSession) :
    IncrementalParseState :=
  { start_offset := cached.last_byte_offset
    message_count := session.message_count
    sidechain_count := cached.sidechain_count
    last_timestamp := some session.last_message_time
    has_tool_use := cached.has_tool_use
    has_errors := cached.has_errors
    session_id := some session.actual_session_id
    first_timestamp := some session.first_message_time
    summary := session.summary
    first_user_content := session.summary }

/-- The growth check of `load_project_sessions` (lines 636-660) followed by
the fall-through to a full parse (line 668). -/
def categorize_growth (cached : CachedSessionMetadata) (current_size : Nat) :
    FileParseStrategy :=
  if cached.file_size < current_size then
    match cached.session with
    | some session => .incremental (incremental_state_of cached session)
    | none => .fullParse
  else .fullParse

/-- The per-file categorization of `load_project_sessions` (lines 615-669).
When the unchanged-file check passes but the cached entry holds no session,
control falls through to the growth check exactly as in the source. -/
def categorize_file (cached? : Option CachedSessionMetadata) (current_size : Nat)
    (current_mtime : Option Nat) : FileParseStrategy :=
  match cached? with
  | none => .fullParse
  | some cached =>
    if some cached.modified_time = current_mtime ∧ cached.file_size = current_size then
      match cached.session with
      | some session => .useCached session cached.sidechain_count
      | none => categorize_growth cached current_size
    else categorize_growth cached current_size

/-- Discriminator: is the strategy the reparse-free cached one? -/
def FileParseStrategy.isUseCached : FileParseStrategy → Bool
  | .useCached _ _ => true
  | _ => false

/-- A cache entry for a file that held no valid messages (`session: None`). -/
def sessionlessCacheEntry : CachedSessionMetadata :=
  { modified_time := 5
    file_size := 10
    last_byte_offset := 10
    session := none
    sidechain_count := 0
    has_tool_use := false
    has_errors := false }

/-- C3 counterexample: a cached file with `session: None` whose size and
mtime are unchanged is fully reparsed, not served from the cache as the claim
states. -/
theorem c3_counterexample :
    categorize_file (some sessionlessCacheEntry) 10 (some 5) = FileParseStrategy.fullParse ∧
    (categorize_file (some sessionlessCacheEntry) 10 (some 5)).isUseCached = false := by
  constructor <;> rfl

/-- C3 (amended): the claimed invalidation rules hold for cached entries that
hold a session; a cached entry with `session = none` is always fully
reparsed, and so is an uncached file. -/
theorem c3_amended (cached : CachedSessionMetadata) (sz : Nat) (mt : Option Nat) :
    (∀ s, cached.session = some s →
      ((mt = some cached.modified_time ∧ cached.file_size = sz) →
        categorize_file (some cached) sz mt = .useCached s cached.sidechain_count) ∧
      (cached.file_size < sz →
        categorize_file (some cached) sz mt = .incremental (incremental_state_of cached s)) ∧
      (¬(mt = some cached.modified_time ∧ cached.file_size = sz) → ¬cached.file_size < sz →
        categorize_file (some cached) sz mt = .fullParse)) ∧
    (cached.session = none → categorize_file (some cached) sz mt = .fullParse) ∧
    categorize_file none sz mt = .fullParse := by
  refine ⟨fun s hs => ⟨fun hunch => ?_, fun hgrow => ?_, fun hunch hgrow => ?_⟩, fun hn => ?_, rfl⟩
  · have : some cached.modified_time = mt ∧ cached.file_size = sz := ⟨hunch.1.symm, hunch.2⟩
    simp [categorize_file, if_pos this, hs]
  · have hne : ¬(some cached.modified_time = mt ∧ cached.file_size = sz) := by
      rintro ⟨-, h2⟩; omega
    simp [categorize_file, if_neg hne, categorize_growth, if_pos hgrow, hs]
  · have hne : ¬(some cached.modified_time = mt ∧ cached.file_size = sz) := by
      rintro ⟨h1, h2⟩; exact hunch ⟨h1.symm, h2⟩
    simp [categorize_file, if_neg hne, categorize_growth, if_neg hgrow]
  · by_cases hunch : some cached.modified_time = mt ∧ cached.file_size = sz
    · simp [categorize_file, if_pos hunch, hn, categorize_growth]
    · simp [categorize_file, if_neg hunch, hn, categorize_growth]

/-- C3 witness: the amended rules applied to a populated cache entry for an
unchanged file. -/
theorem c3_amended_witness :
    categorize_file (some { sessionlessCacheEntry with
        session := some { session_id := "p"
                          actual_session_id := "s"
                          file_path := "p"
                          project_name := "proj"
                          message_count := 3
                          first_message_time := "t0"
                          last_message_time := "t1"
                          last_modified := "t1"
                          has_tool_use := false
                          has_errors := false
                          summary := none } }) 10 (some 5) =
      .useCached { session_id := "p"
                   actual_session_id := "s"
                   file_path := "p"
                   project_name := "proj"
                   message_count := 3
                   first_message_time := "t0"
                   last_message_time := "t1"
                   last_modified := "t1"
                   has_tool_use := false
                   has_errors := false
                   summary := none } 0 :=
  ((c3_amended _ 10 (some 5)).1 _ rfl).1 ⟨rfl, rfl⟩

/-! ## Ordering of sessions in `load_project_sessions` (C5)

The source sorts with `sessions.sort_by(|a, b| b.last_message_time.cmp(&a.last_message_time))`
(line 755).  Rust's `sort_by` is a stable sort; a stable sort's output is
uniquely determined by the comparator and the input order, so it is modelled
by a stable insertion sort with the same comparator. -/

/-- Stable descending insertion by `last_message_time`: the new element goes
after every element whose key is ≥ its own (equal keys keep input order). -/
def insert_desc (s : ClaudeSession) : List ClaudeSession → List ClaudeSession
  | [] => [s]
  | t :: ts =>
    if t.last_message_time.data < s.last_message_time.data then s :: t :: ts
    else t :: insert_desc s ts

/-- Model of `sessions.sort_by(|a, b| b.last_message_time.cmp(&a.last_message_time))`. -/
def sort_sessions (l : List ClaudeSession) : List ClaudeSession :=
  l.foldl (fun acc s => insert_desc s acc) []

/-- The ordering claimed by C5: descending by `last_message_time` with ties
broken by session file path. -/
def spec_precedes (a b : ClaudeSession) : Bool :=
  decide (b.last_message_time.data < a.last_message_time.data) ||
  (a.last_message_time == b.last_message_time && decide (a.file_path.data < b.file_path.data))

/-- Insertion sort under the claimed comparator `spec_precedes`. -/
def spec_insert (s : ClaudeSession) : List ClaudeSession → List ClaudeSession
  | [] => [s]
  | t :: ts => if spec_precedes s t then s :: t :: ts else t :: spec_insert s ts

/-- The session order claimed by C5. -/
def spec_sort_sessions (l : List ClaudeSession) : List ClaudeSession :=
  l.foldl (fun acc s => spec_insert s acc) []

/-- Session stub used by the C5 counterexample. -/
def mkSessionCS (path time : String) : ClaudeSession :=
  { session_id := path
    actual_session_id := "s"
    file_path := path
    project_name := "p"
    message_count := 1
    first_message_time := time
    last_message_time := time
    last_modified := time
    has_tool_use := false
    has_errors := false
    summary := none }

/-- C5 counterexample: two sessions with equal `last_message_time` whose file
paths are in the opposite order of their enumeration.  The code's stable sort
keeps the enumeration order `[b, a]`; the claimed path tie-break would give
`[a, b]`. -/
theorem c5_counterexample :
    sort_sessions [mkSessionCS "b" "t", mkSessionCS "a" "t"] =
      [mkSessionCS "b" "t", mkSessionCS "a" "t"] ∧
    spec_sort_sessions [mkSessionCS "b" "t", mkSessionCS "a" "t"] =
      [mkSessionCS "a" "t", mkSessionCS "b" "t"] ∧
    sort_sessions [mkSessionCS "b" "t", mkSessionCS "a" "t"] ≠
      spec_sort_sessions [mkSessionCS "b" "t", mkSessionCS "a" "t"] := by
  refine ⟨by decide, by decide, by decide⟩

/-- Membership after insertion. -/
theorem mem_insert_desc {x s : ClaudeSession} :
    ∀ {acc : List ClaudeSession}, x ∈ insert_desc s acc → x = s ∨ x ∈ acc := by
  intro acc
  induction acc with
  | nil => intro h; simp [insert_desc] at h; exact Or.inl h
  | cons t ts ih =>
    intro h
    by_cases hc : t.last_message_time.data < s.last_message_time.data
    · simp [insert_desc, hc] at h
      rcases h with h | h | h
      · exact Or.inl h
      · exact Or.inr (by simp [h])
      · exact Or.inr (by simp [h])
    · simp [insert_desc, hc] at h
      rcases h with h | h
      · exact Or.inr (by simp [h])
      · rcases ih h with h | h
        · exact Or.inl h
        · exact Or.inr (by simp [h])

/-- Insertion preserves the non-increasing-key invariant. -/
theorem insert_desc_pairwise {s : ClaudeSession} :
    ∀ {acc : List ClaudeSession},
      acc.Pairwise (fun a b => b.last_message_time.data ≤ a.last_message_time.data) →
      (insert_desc s acc).Pairwise (fun a b => b.last_message_time.data ≤ a.last_message_time.data) := by
  intro acc
  induction acc with
  | nil => intro _; simp [insert_desc]
  | cons t ts ih =>
    intro h
    rw [List.pairwise_cons] at h
    by_cases hc : t.last_message_time.data < s.last_message_time.data
    · rw [insert_desc, if_pos hc]
      refine List.pairwise_cons.mpr ⟨?_, List.pairwise_cons.mpr ⟨h.1, h.2⟩⟩
      intro b hb
      rcases List.mem_cons.mp hb with hb | hb
      · exact hb ▸ le_of_lt hc
      · exact le_trans (h.1 b hb) (le_of_lt hc)
    · rw [insert_desc, if_neg hc]
      refine List.pairwise_cons.mpr ⟨?_, ih h.2⟩
      intro b hb
      rcases mem_insert_desc hb with hb | hb
      · exact hb ▸ le_of_not_lt hc
      · exact h.1 b hb

/-- Filtering at one key commutes with insertion: the inserted element lands
after all previously present elements of its key. -/
theorem filter_insert_desc (s : ClaudeSession) (k : String) :
    ∀ (acc : List ClaudeSession),
      acc.Pairwise (fun a b => b.last_message_time.data ≤ a.last_message_time.data) →
      (insert_desc s acc).filter (fun x => x.last_message_time == k) =
        if s.last_message_time == k
        then acc.filter (fun x => x.last_message_time == k) ++ [s]
        else acc.filter (fun x => x.last_message_time == k) := by
  intro acc
  induction acc with
  | nil =>
    intro _
    by_cases hk : s.last_message_time == k <;> simp [insert_desc, hk]
  | cons t ts ih =>
    intro h
    rw [List.pairwise_cons] at h
    by_cases hc : t.last_message_time.data < s.last_message_time.data
    · rw [insert_desc, if_pos hc]
      by_cases hk : (s.last_message_time == k) = true
      · have hkeq : s.last_message_time = k := by simpa using hk
        have hnil : (t :: ts).filter (fun x => x.last_message_time == k) = [] := by
          rw [List.filter_eq_nil_iff]
          intro a ha
          have hle : a.last_message_time.data ≤ t.last_message_time.data := by
            rcases List.mem_cons.mp ha with rfl | ha
            · exact le_refl _
            · exact h.1 a ha
          have hlt : a.last_message_time.data < s.last_message_time.data := lt_of_le_of_lt hle hc
          simp only [beq_iff_eq]
          intro hek
          rw [hek, hkeq] at hlt
          exact lt_irrefl _ hlt
        rw [if_pos hk, hnil, List.filter_cons, hnil]
        simp [hk]
      · rw [if_neg hk, List.filter_cons]
        simp [hk]
    · rw [insert_desc, if_neg hc]
      rw [List.filter_cons, ih h.2, List.filter_cons]
      by_cases ht : (t.last_message_time == k) = true <;>
        by_cases hk : (s.last_message_time == k) = true <;>
          simp [ht, hk]

/-- Invariants of the insertion-sort loop: sortedness and per-key stability. -/
theorem sort_loop_props :
    ∀ (l acc : List ClaudeSession),
      acc.Pairwise (fun a b => b.last_message_time.data ≤ a.last_message_time.data) →
      (l.foldl (fun a s => insert_desc s a) acc).Pairwise
        (fun a b => b.last_message_time.data ≤ a.last_message_time.data) ∧
      ∀ k, (l.foldl (fun a s => insert_desc s a) acc).filter
              (fun x => x.last_message_time == k) =
            acc.filter (fun x => x.last_message_time == k) ++
              l.filter (fun x => x.last_message_time == k) := by
  intro l
  induction l with
  | nil => intro acc h; exact ⟨h, fun k => by simp⟩
  | cons s rest ih =>
    intro acc h
    have hins := insert_desc_pairwise (s := s) h
    obtain ⟨h1, h2⟩ := ih (insert_desc s acc) hins
    refine ⟨h1, fun k => ?_⟩
    rw [List.foldl_cons, h2 k, filter_insert_desc s k acc h, List.filter_cons]
    by_cases hk : (s.last_message_time == k) = true <;> simp [hk]

/-- C5 (amended): the sessions returned by one `load_project_sessions` call
are sorted in non-increasing `last_message_time` order, and sessions with
equal `last_message_time` keep their relative enumeration order (the sort is
stable); ties are NOT broken by file path. -/
theorem c5_amended (l : List ClaudeSession) :
    (sort_sessions l).Pairwise (fun a b => b.last_message_time.data ≤ a.last_message_time.data) ∧
    ∀ k, (sort_sessions l).filter (fun x => x.last_message_time == k) =
          l.filter (fun x => x.last_message_time == k) := by
  obtain ⟨h1, h2⟩ := sort_loop_props l [] (List.Pairwise.nil)
  exact ⟨h1, fun k => by simpa using h2 k⟩

/-! ## Summary propagation in `load_project_sessions` (C8) -/

/-- One step of the summary-map construction (lines 760-766 of
`commands/session/load.rs`): a session with a non-empty summary inserts it
under its `actual_session_id`; a later insert overwrites an earlier one,
exactly as `HashMap::insert` during the in-order iteration. -/
def summary_step (m : String → Option String) (s : ClaudeSession) : String → Option String :=
  match s.summary with
  | some t => if t = "" then m else fun k => if k = s.actual_session_id then some t else m k
  | none => m

/-- The summary map built by `load_project_sessions` (lines 758-766). -/
def build_summary_map (l : List ClaudeSession) : String → Option String :=
  l.foldl summary_step (fun _ => none)

/-- Whether a session receives a propagated summary (lines 769-774): summary
missing or empty. -/
def needs_summary (s : ClaudeSession) : Bool :=
  match s.summary with
  | none => true
  | some t => t = ""

/-- The per-session assignment of lines 768-779. -/
def fill_summary (m : String → Option String) (s : ClaudeSession) : ClaudeSession :=
  if needs_summary s then
    match m s.actual_session_id with
    | some v => { s with summary := some v }
    | none => s
  else s

/-- The whole summary-propagation pass of `load_project_sessions`
(lines 757-779). -/
def propagate_summaries (l : List ClaudeSession) : List ClaudeSession :=
  l.map (fill_summary (build_summary_map l))

/-- The contribution of a single session to the summary map. -/
def summary_contrib (s : ClaudeSession) (k : String) : Option String :=
  match s.summary with
  | some t => if s.actual_session_id = k ∧ t ≠ "" then some t else none
  | none => none

/-- Last non-empty summary recorded for a key (the right-most wins, matching
insert-overwrites during in-order iteration). -/
def last_summary_val : List ClaudeSession → String → Option String
  | [], _ => none
  | s :: rest, k =>
    match last_summary_val rest k with
    | some v => some v
    | none => summary_contrib s k

/-- Pointwise evaluation of one map-building step. -/
theorem summary_step_eval (m : String → Option String) (s : ClaudeSession) (k : String) :
    summary_step m s k =
      match summary_contrib s k with
      | some v => some v
      | none => m k := by
  unfold summary_step summary_contrib
  cases s.summary with
  | none => rfl
  | some t =>
    by_cases ht : t = ""
    · have hc : ¬(s.actual_session_id = k ∧ ¬t = "") := fun hc => hc.2 ht
      simp only [if_pos ht, if_neg hc]
    · simp only [if_neg ht]
      by_cases hk : k = s.actual_session_id
      · subst hk
        simp [ht]
      · have hc : ¬(s.actual_session_id = k ∧ ¬t = "") := fun hc => hk hc.1.symm
        simp only [if_neg hk, if_neg hc]

/-- The folded map evaluates to the right-most contribution, falling back to
the initial map. -/
theorem summary_fold_eval (l : List ClaudeSession) :
    ∀ (m0 : String → Option String) (k : String),
      (l.foldl summary_step m0) k =
        match last_summary_val l k with
        | some v => some v
        | none => m0 k := by
  induction l with
  | nil => intro m0 k; simp [last_summary_val]
  | cons s rest ih =>
    intro m0 k
    rw [List.foldl_cons, ih (summary_step m0 s) k, summary_step_eval]
    show _ = (match last_summary_val (s :: rest) k with
              | some v => some v
              | none => m0 k)
    rw [last_summary_val]
    cases last_summary_val rest k with
    | some v => rfl
    | none => cases summary_contrib s k <;> rfl

/-- The summary map is the right-most non-empty summary per key. -/
theorem build_summary_map_eq (l : List ClaudeSession) (k : String) :
    build_summary_map l k = last_summary_val l k := by
  rw [build_summary_map, summary_fold_eval]
  cases last_summary_val l k <;> rfl

/-- Values stored in the summary map are never empty. -/
theorem last_summary_val_ne_empty :
    ∀ (l : List ClaudeSession) (k : String) (v : String),
      last_summary_val l k = some v → v ≠ "" := by
  intro l
  induction l with
  | nil => intro k v h; exact absurd h (by simp [last_summary_val])
  | cons s rest ih =>
    intro k v h
    rw [last_summary_val] at h
    cases hr : last_summary_val rest k with
    | some w =>
      rw [hr] at h
      change some w = some v at h
      cases h
      exact ih k v hr
    | none =>
      rw [hr] at h
      change summary_contrib s k = some v at h
      unfold summary_contrib at h
      split at h
      · split at h
        · rename_i t hcond
          cases h
          exact hcond.2
        · exact absurd h (by simp)
      · exact absurd h (by simp)

/-- Filling from a map cannot create a summary for a key the map lacks. -/
theorem last_summary_val_fill_none (m : String → Option String) (k : String)
    (hmk : m k = none) :
    ∀ (l : List ClaudeSession), last_summary_val l k = none →
      last_summary_val (l.map (fill_summary m)) k = none := by
  intro l
  induction l with
  | nil => intro _; simp [last_summary_val]
  | cons s rest ih =>
    intro h
    rw [last_summary_val] at h
    have hrest : last_summary_val rest k = none := by
      cases hr : last_summary_val rest k with
      | some v => rw [hr] at h; exact absurd h (by simp)
      | none => rfl
    have hcontrib : summary_contrib s k = none := by rw [hrest] at h; exact h
    rw [List.map_cons, last_summary_val, ih hrest]
    show summary_contrib (fill_summary m s) k = none
    unfold fill_summary
    by_cases hn : needs_summary s
    · rw [if_pos hn]
      cases hm : m s.actual_session_id with
      | none => exact hcontrib
      | some v =>
        show summary_contrib { s with summary := some v } k = none
        unfold summary_contrib
        have hid : s.actual_session_id ≠ k := by
          intro hk
          rw [hk] at hm
          rw [hmk] at hm
          exact Option.noConfusion hm
        simp only []
        rw [if_neg (fun hc => hid hc.1)]
    · rw [if_neg hn]; exact hcontrib

/-- Applying the fill twice (with the rebuilt map) is a no-op per session. -/
theorem fill_summary_idem (l : List ClaudeSession) (s : ClaudeSession) :
    fill_summary (build_summary_map (propagate_summaries l))
        (fill_summary (build_summary_map l) s) =
      fill_summary (build_summary_map l) s := by
  by_cases hn : needs_summary s
  · cases h1 : build_summary_map l s.actual_session_id with
    | some v =>
      have hv : v ≠ "" :=
        last_summary_val_ne_empty l s.actual_session_id v (build_summary_map_eq l _ ▸ h1)
      have heq : fill_summary (build_summary_map l) s = { s with summary := some v } := by
        rw [fill_summary, if_pos hn, h1]
      rw [heq]
      have hns : needs_summary { s with summary := some v } = false := by
        simp [needs_summary, hv]
      rw [fill_summary, hns]
      simp
    | none =>
      have heq : fill_summary (build_summary_map l) s = s := by
        rw [fill_summary, if_pos hn, h1]
      rw [heq]
      have h2 : build_summary_map (propagate_summaries l) s.actual_session_id = none := by
        rw [build_summary_map_eq, propagate_summaries]
        exact last_summary_val_fill_none (build_summary_map l) s.actual_session_id h1 l
          (build_summary_map_eq l s.actual_session_id ▸ h1)
      rw [fill_summary, if_pos hn, h2]
  · have heq : fill_summary (build_summary_map l) s = s := by
      rw [fill_summary, if_neg hn]
    rw [heq, fill_summary, if_neg hn]

/-- C8 (confirmed): the summary-propagation pass of `load_project_sessions`
is idempotent — applying it twice yields the same session list as applying it
once. -/
theorem c8_propagation_idempotent (l : List ClaudeSession) :
    propagate_summaries (propagate_summaries l) = propagate_summaries l := by
  conv_lhs => rw [propagate_summaries]
  show (l.map (fill_summary (build_summary_map l))).map
      (fill_summary (build_summary_map (propagate_summaries l))) = _
  rw [List.map_map]
  refine List.map_congr_left (fun s _ => ?_)
  exact fill_summary_idem l s

/-! ## Token extraction in the statistics aggregator (`commands/stats.rs`, C4) -/

/-- `TokenUsage` from the models crate, as read by `stats.rs`. -/
structure TokenUsage where
  input_tokens : Option Nat
  output_tokens : Option Nat
  cache_creation_input_tokens : Option Nat
  cache_read_input_tokens : Option Nat
  service_tier : Option String
deriving DecidableEq

/-- The all-`None` usage built at the top of `extract_token_usage`. -/
def empty_token_usage : TokenUsage :=
  { input_tokens := none
    output_tokens := none
    cache_creation_input_tokens := none
    cache_read_input_tokens := none
    service_tier := none }

/-- The fields of `ClaudeMessage` that the statistics token and tool logic
reads; the remaining pass-through fields of the Rust struct are never touched
by the functions verified here. -/
structure ClaudeMessage where
  message_type : String
  content : Option Json
  tool_use : Option Json
  tool_use_result : Option Json
  usage : Option TokenUsage

/-- The `content.usage` block of `extract_token_usage`
(`stats.rs` lines 394-422): each present field overwrites, in source order
input, output, service_tier, cache_creation, cache_read. -/
def apply_content_usage (usage : TokenUsage) (uo : Json) : TokenUsage :=
  let usage := match (uo.getKey "input_tokens").bind Json.asNat with
    | some n => { usage with input_tokens := some n }
    | none => usage
  let usage := match (uo.getKey "output_tokens").bind Json.asNat with
    | some n => { usage with output_tokens := some n }
    | none => usage
  let usage := match (uo.getKey "service_tier").bind Json.asStr with
    | some t => { usage with service_tier := some t }
    | none => usage
  let usage := match (uo.getKey "cache_creation_input_tokens").bind Json.asNat with
    | some n => { usage with cache_creation_input_tokens := some n }
    | none => usage
  match (uo.getKey "cache_read_input_tokens").bind Json.asNat with
    | some n => { usage with cache_read_input_tokens := some n }
    | none => usage

/-- The `toolUseResult.usage` block of `extract_token_usage`
(`stats.rs` lines 426-452): the four token fields, no service_tier. -/
def apply_result_usage (usage : TokenUsage) (uo : Json) : TokenUsage :=
  let usage := match (uo.getKey "input_tokens").bind Json.asNat with
    | some n => { usage with input_tokens := some n }
    | none => usage
  let usage := match (uo.getKey "output_tokens").bind Json.asNat with
    | some n => { usage with output_tokens := some n }
    | none => usage
  let usage := match (uo.getKey "cache_creation_input_tokens").bind Json.asNat with
    | some n => { usage with cache_creation_input_tokens := some n }
    | none => usage
  match (uo.getKey "cache_read_input_tokens").bind Json.asNat with
    | some n => { usage with cache_read_input_tokens := some n }
    | none => usage

/-- `extract_token_usage` from `commands/stats.rs` (lines 374-468). -/
def extract_token_usage (message : ClaudeMessage) : TokenUsage :=
  match message.usage with
  | some usage => usage
  | none =>
    let usage := empty_token_usage
    let usage :=
      match message.content with
      | some content =>
        match (if content.isObj && (content.getKey "usage").isSome
               then content.getKey "usage" else none) with
        | some uo => apply_content_usage usage uo
        | none => usage
      | none => usage
    match message.tool_use_result with
    | some tool_result =>
      let usage :=
        match tool_result.getKey "usage" with
        | some uo => apply_result_usage usage uo
        | none => usage
      match (tool_result.getKey "totalTokens").bind Json.asNat with
      | some total =>
        if usage.input_tokens = none ∧ usage.output_tokens = none then
          if message.message_type == "assistant"
          then { usage with output_tokens := some total }
          else { usage with input_tokens := some total }
        else usage
      | none => usage
    | none => usage

/-- Reading of a `u64` field of a usage object. -/
def lookupNat (uo : Json) (name : String) : Option Nat :=
  (uo.getKey name).bind Json.asNat

/-- Reading of a string field of a usage object. -/
def lookupStr (uo : Json) (name : String) : Option String :=
  (uo.getKey name).bind Json.asStr

/-- First-some choice (override semantics: a present new value replaces the
old one, an absent one keeps it). -/
def upd {α : Type} (o d : Option α) : Option α :=
  match o with
  | some v => some v
  | none => d

/-- Token extraction as C4 claims it: strict first-present-wins precedence
over whole sources — top-level usage, else `content.usage`, else
`toolUseResult.usage`, else `toolUseResult.totalTokens`; an earlier-present
source is never overridden. -/
def claim_token_usage (message : ClaudeMessage) : TokenUsage :=
  match message.usage with
  | some u => u
  | none =>
    match message.content.bind (fun c =>
        if c.isObj && (c.getKey "usage").isSome then c.getKey "usage" else none) with
    | some uo =>
      { input_tokens := lookupNat uo "input_tokens"
        output_tokens := lookupNat uo "output_tokens"
        cache_creation_input_tokens := lookupNat uo "cache_creation_input_tokens"
        cache_read_input_tokens := lookupNat uo "cache_read_input_tokens"
        service_tier := lookupStr uo "service_tier" }
    | none =>
      match message.tool_use_result.bind (fun tr => tr.getKey "usage") with
      | some uo =>
        { input_tokens := lookupNat uo "input_tokens"
          output_tokens := lookupNat uo "output_tokens"
          cache_creation_input_tokens := lookupNat uo "cache_creation_input_tokens"
          cache_read_input_tokens := lookupNat uo "cache_read_input_tokens"
          service_tier := none }
      | none =>
        match message.tool_use_result.bind (fun tr => lookupNat tr "totalTokens") with
        | some total =>
          if message.message_type == "assistant"
          then { empty_token_usage with output_tokens := some total }
          else { empty_token_usage with input_tokens := some total }
        | none => empty_token_usage

/-- A message whose `content.usage` and `toolUseResult.usage` are both
present with different `input_tokens`. -/
def c4CexMsg : ClaudeMessage :=
  { message_type := "user"
    content := some (Json.obj [("usage", Json.obj [("input_tokens", Json.num 5)])])
    tool_use := none
    tool_use_result := some (Json.obj [("usage", Json.obj [("input_tokens", Json.num 7)])])
    usage := none }

/-- C4 counterexample: with `content.usage.input_tokens = 5` present, the
later source `toolUseResult.usage.input_tokens = 7` still overrides it, so
the extraction is not first-present-wins over sources. -/
theorem c4_counterexample :
    (extract_token_usage c4CexMsg).input_tokens = some 7 ∧
    (claim_token_usage c4CexMsg).input_tokens = some 5 ∧
    extract_token_usage c4CexMsg ≠ claim_token_usage c4CexMsg := by
  refine ⟨rfl, rfl, ?_⟩
  intro h
  have h1 : (some 7 : Option Nat) = some 5 := by
    have h2 : (extract_token_usage c4CexMsg).input_tokens =
        (claim_token_usage c4CexMsg).input_tokens := by rw [h]
    exact h2
  exact absurd h1 (by simp)

/-- Evaluation of the content-usage block: each field is the looked-up value
when present, the previous value otherwise. -/
theorem apply_content_usage_eval (u : TokenUsage) (uo : Json) :
    apply_content_usage u uo =
      { input_tokens := upd (lookupNat uo "input_tokens") u.input_tokens
        output_tokens := upd (lookupNat uo "output_tokens") u.output_tokens
        cache_creation_input_tokens :=
          upd (lookupNat uo "cache_creation_input_tokens") u.cache_creation_input_tokens
        cache_read_input_tokens :=
          upd (lookupNat uo "cache_read_input_tokens") u.cache_read_input_tokens
        service_tier := upd (lookupStr uo "service_tier") u.service_tier } := by
  unfold apply_content_usage lookupNat lookupStr upd
  cases (uo.getKey "input_tokens").bind Json.asNat <;>
    cases (uo.getKey "output_tokens").bind Json.asNat <;>
      cases (uo.getKey "service_tier").bind Json.asStr <;>
        cases (uo.getKey "cache_creation_input_tokens").bind Json.asNat <;>
          cases (uo.getKey "cache_read_input_tokens").bind Json.asNat <;> rfl

/-- Evaluation of the toolUseResult-usage block. -/
theorem apply_result_usage_eval (u : TokenUsage) (uo : Json) :
    apply_result_usage u uo =
      { input_tokens := upd (lookupNat uo "input_tokens") u.input_tokens
        output_tokens := upd (lookupNat uo "output_tokens") u.output_tokens
        cache_creation_input_tokens :=
          upd (lookupNat uo "cache_creation_input_tokens") u.cache_creation_input_tokens
        cache_read_input_tokens :=
          upd (lookupNat uo "cache_read_input_tokens") u.cache_read_input_tokens
        service_tier := u.service_tier } := by
  unfold apply_result_usage lookupNat upd
  cases (uo.getKey "input_tokens").bind Json.asNat <;>
    cases (uo.getKey "output_tokens").bind Json.asNat <;>
      cases (uo.getKey "cache_creation_input_tokens").bind Json.asNat <;>
        cases (uo.getKey "cache_read_input_tokens").bind Json.asNat <;> rfl

/-- Token extraction as the code actually behaves (the amended C4): the
top-level usage wins outright when present; otherwise every token field is
taken from `toolUseResult.usage` when present there, else from
`content.usage` (so the later source overrides the earlier field-wise);
`service_tier` comes only from `content.usage`; and
`toolUseResult.totalTokens` applies only when both input and output are still
unset, going to output for assistant records and to input otherwise. -/
def amended_token_usage (message : ClaudeMessage) : TokenUsage :=
  match message.usage with
  | some u => u
  | none =>
    let cu := message.content.bind (fun c =>
      if c.isObj && (c.getKey "usage").isSome then c.getKey "usage" else none)
    let tu := message.tool_use_result.bind (fun tr => tr.getKey "usage")
    let base : TokenUsage :=
      { input_tokens := upd (tu.bind (fun uo => lookupNat uo "input_tokens"))
          (cu.bind (fun uo => lookupNat uo "input_tokens"))
        output_tokens := upd (tu.bind (fun uo => lookupNat uo "output_tokens"))
          (cu.bind (fun uo => lookupNat uo "output_tokens"))
        cache_creation_input_tokens :=
          upd (tu.bind (fun uo => lookupNat uo "cache_creation_input_tokens"))
            (cu.bind (fun uo => lookupNat uo "cache_creation_input_tokens"))
        cache_read_input_tokens :=
          upd (tu.bind (fun uo => lookupNat uo "cache_read_input_tokens"))
            (cu.bind (fun uo => lookupNat uo "cache_read_input_tokens"))
        service_tier := cu.bind (fun uo => lookupStr uo "service_tier") }
    match message.tool_use_result.bind (fun tr => lookupNat tr "totalTokens") with
    | some total =>
      if base.input_tokens = none ∧ base.output_tokens = none then
        if message.message_type == "assistant"
        then { base with output_tokens := some total }
        else { base with input_tokens := some total }
      else base
    | none => base

/-- C4 (amended): `extract_token_usage` equals the amended description for
every message. -/
theorem c4_amended_eq (m : ClaudeMessage) :
    extract_token_usage m = amended_token_usage m := by
  unfold extract_token_usage amended_token_usage
  cases hu : m.usage with
  | some u => rfl
  | none =>
    cases hc : m.content with
    | none =>
      cases ht : m.tool_use_result with
      | none => rfl
      | some tr =>
        simp only [Option.some_bind, Option.none_bind]
        cases htu : tr.getKey "usage" with
        | none =>
          simp only [lookupNat, upd]
          cases (tr.getKey "totalTokens").bind Json.asNat <;> rfl
        | some uo =>
          simp only [apply_result_usage_eval]
          simp only [lookupNat, upd, Option.some_bind, empty_token_usage]
    | some c =>
      simp only [Option.some_bind]
      cases hcu : (if c.isObj && (c.getKey "usage").isSome
                   then c.getKey "usage" else none) with
      | none =>
        cases ht : m.tool_use_result with
        | none => rfl
        | some tr =>
          simp only [Option.some_bind, Option.none_bind]
          cases htu : tr.getKey "usage" with
          | none =>
            simp only [lookupNat, upd]
            cases (tr.getKey "totalTokens").bind Json.asNat <;> rfl
          | some uo =>
            simp only [apply_result_usage_eval]
            simp only [lookupNat, upd, Option.some_bind, empty_token_usage]
      | some uo =>
        simp only [apply_content_usage_eval]
        cases ht : m.tool_use_result with
        | none =>
          simp only [Option.some_bind, Option.none_bind, lookupNat, lookupStr, upd,
            empty_token_usage]
          cases (uo.getKey "input_tokens").bind Json.asNat <;>
            cases (uo.getKey "output_tokens").bind Json.asNat <;>
              cases (uo.getKey "service_tier").bind Json.asStr <;>
                cases (uo.getKey "cache_creation_input_tokens").bind Json.asNat <;>
                  cases (uo.getKey "cache_read_input_tokens").bind Json.asNat <;> rfl
        | some tr =>
          simp only [Option.some_bind]
          cases htu : tr.getKey "usage" with
          | none =>
            simp only [Option.none_bind, lookupNat, lookupStr, upd, empty_token_usage]
            cases (uo.getKey "input_tokens").bind Json.asNat <;>
              cases (uo.getKey "output_tokens").bind Json.asNat <;>
                cases (uo.getKey "service_tier").bind Json.asStr <;>
                  cases (uo.getKey "cache_creation_input_tokens").bind Json.asNat <;>
                    cases (uo.getKey "cache_read_input_tokens").bind Json.asNat <;>
                      cases (tr.getKey "totalTokens").bind Json.asNat <;> rfl
          | some uo2 =>
            simp only [apply_result_usage_eval]
            simp only [Option.some_bind, lookupNat, lookupStr, upd, empty_token_usage]
            cases (uo.getKey "input_tokens").bind Json.asNat <;>
              cases (uo.getKey "output_tokens").bind Json.asNat <;>
                cases (uo.getKey "service_tier").bind Json.asStr <;>
                  cases (uo.getKey "cache_creation_input_tokens").bind Json.asNat <;>
                    cases (uo.getKey "cache_read_input_tokens").bind Json.asNat <;>
                      cases (uo2.getKey "input_tokens").bind Json.asNat <;>
                        cases (uo2.getKey "output_tokens").bind Json.asNat <;>
                          cases (uo2.getKey "cache_creation_input_tokens").bind Json.asNat <;>
                            cases (uo2.getKey "cache_read_input_tokens").bind Json.asNat <;>
                              cases (tr.getKey "totalTokens").bind Json.asNat <;> rfl

/-! ## Tool-usage counting in the statistics aggregator (C6)

`process_session_file_for_global_stats` (stats.rs:143-182) and
`process_session_file_for_project_stats` (stats.rs:296-336) run the identical
per-record update of the `tool_name → (usage_count, success_count)` map,
embedded once below.  The `HashMap` with `or_insert((0,0))` is modelled as a
total function with default `(0,0)`. -/

/-- Increment both counters of one tool. -/
def bump_both (f : String → Nat × Nat) (name : String) : String → Nat × Nat :=
  fun k => if k = name then ((f name).1 + 1, (f name).2 + 1) else f k

/-- Increment only the usage counter of one tool. -/
def bump_usage (f : String → Nat × Nat) (name : String) : String → Nat × Nat :=
  fun k => if k = name then ((f name).1 + 1, (f name).2) else f k

/-- Increment only the success counter of one tool. -/
def bump_success (f : String → Nat × Nat) (name : String) : String → Nat × Nat :=
  fun k => if k = name then ((f name).1, (f name).2 + 1) else f k

/-- One iteration of the assistant-content loop (stats.rs:147-162): an item of
type `tool_use` with a name increments BOTH counters unconditionally. -/
def content_tool_step (g : String → Nat × Nat) (item : Json) : String → Nat × Nat :=
  match (item.getKey "type").bind Json.asStr with
  | some item_type =>
    if item_type = "tool_use" then
      match (item.getKey "name").bind Json.asStr with
      | some name => bump_both g name
      | none => g
    else g
  | none => g

/-- The assistant-content loop (stats.rs:143-165). -/
def content_tool_usage (f : String → Nat × Nat) (m : ClaudeMessage) : String → Nat × Nat :=
  if m.message_type == "assistant" then
    match m.content.bind Json.asArr with
    | some items => items.foldl content_tool_step f
    | none => f
  else f

/-- The top-level `toolUse` block (stats.rs:167-182): usage always increments;
success increments only when a `toolUseResult` is PRESENT and its `is_error`
is not true. -/
def top_tool_usage (f : String → Nat × Nat) (m : ClaudeMessage) : String → Nat × Nat :=
  match m.tool_use.bind (fun tu => (tu.getKey "name").bind Json.asStr) with
  | some name =>
    let f1 := bump_usage f name
    match m.tool_use_result with
    | some result =>
      if ((result.getKey "is_error").bind Json.asBool).getD false then f1
      else bump_success f1 name
    | none => f1
  | none => f

/-- The whole per-record tool-usage update, content loop then toolUse block,
in source order. -/
def record_tool_usage (f : String → Nat × Nat) (m : ClaudeMessage) : String → Nat × Nat :=
  top_tool_usage (content_tool_usage f m) m

/-- C6's claimed success condition: no accompanying `toolUseResult` with
`is_error == true`; in particular an absent `toolUseResult` counts as
success. -/
def claim_no_error (m : ClaudeMessage) : Bool :=
  match m.tool_use_result with
  | some result => !(((result.getKey "is_error").bind Json.asBool).getD false)
  | none => true

/-- The per-record update as C6 claims it: usage incremented in cases (a) and
(b), success incremented in both cases exactly when `claim_no_error`. -/
def claim_tool_usage (f : String → Nat × Nat) (m : ClaudeMessage) : String → Nat × Nat :=
  let step := fun (g : String → Nat × Nat) (item : Json) =>
    match (item.getKey "type").bind Json.asStr with
    | some item_type =>
      if item_type = "tool_use" then
        match (item.getKey "name").bind Json.asStr with
        | some name => if claim_no_error m then bump_both g name else bump_usage g name
        | none => g
      else g
    | none => g
  let f1 :=
    if m.message_type == "assistant" then
      match m.content.bind Json.asArr with
      | some items => items.foldl step f
      | none => f
    else f
  match m.tool_use.bind (fun tu => (tu.getKey "name").bind Json.asStr) with
  | some name =>
    if claim_no_error m then bump_both f1 name else bump_usage f1 name
  | none => f1

/-- A record with a top-level `toolUse` named Read and no `toolUseResult`. -/
def c6CexMsg : ClaudeMessage :=
  { message_type := "user"
    content := none
    tool_use := some (Json.obj [("name", Json.str "Read")])
    tool_use_result := none
    usage := none }

/-- C6 counterexample: a top-level `toolUse` with no `toolUseResult` at all is
counted as `(usage, success) = (1, 0)` by the code, while the claim demands
`(1, 1)` (absent result = success). -/
theorem c6_counterexample :
    record_tool_usage (fun _ => (0, 0)) c6CexMsg "Read" = (1, 0) ∧
    claim_tool_usage (fun _ => (0, 0)) c6CexMsg "Read" = (1, 1) ∧
    record_tool_usage (fun _ => (0, 0)) c6CexMsg "Read" ≠
      claim_tool_usage (fun _ => (0, 0)) c6CexMsg "Read" := by
  refine ⟨rfl, rfl, by decide⟩

/-- The name contributed by one content item, when it counts. -/
def content_item_name (item : Json) : Option String :=
  match (item.getKey "type").bind Json.asStr with
  | some t => if t = "tool_use" then (item.getKey "name").bind Json.asStr else none
  | none => none

/-- The multiset of tool names contributed by the assistant-content loop. -/
def content_tool_names (m : ClaudeMessage) : List String :=
  if m.message_type == "assistant" then
    match m.content.bind Json.asArr with
    | some items => items.filterMap content_item_name
    | none => []
  else []

/-- The top-level tool name, when present. -/
def top_tool_name (m : ClaudeMessage) : Option String :=
  m.tool_use.bind (fun tu => (tu.getKey "name").bind Json.asStr)

/-- The code's success condition for the top-level block: a result is present
and it is not an error. -/
def result_present_not_error (m : ClaudeMessage) : Bool :=
  match m.tool_use_result with
  | some result => !(((result.getKey "is_error").bind Json.asBool).getD false)
  | none => false

/-- One content step either bumps both counters for its item name or does
nothing. -/
theorem content_tool_step_cases (g : String → Nat × Nat) (item : Json) :
    content_tool_step g item =
      match content_item_name item with
      | some nm => bump_both g nm
      | none => g := by
  unfold content_tool_step content_item_name
  cases (item.getKey "type").bind Json.asStr with
  | none => rfl
  | some t =>
    simp only []
    by_cases ht : t = "tool_use"
    · rw [if_pos ht, if_pos ht]
    · rw [if_neg ht, if_neg ht]

/-- The content loop adds the item-name multiset count to both counters. -/
theorem content_fold_eval :
    ∀ (items : List Json) (g : String → Nat × Nat) (name : String),
      (items.foldl content_tool_step g) name =
        ((g name).1 + (items.filterMap content_item_name).count name,
         (g name).2 + (items.filterMap content_item_name).count name) := by
  intro items
  induction items with
  | nil => intro g name; simp
  | cons item rest ih =>
    intro g name
    have hstep := content_tool_step_cases g item
    cases hn : content_item_name item with
    | none =>
      rw [hn] at hstep
      rw [List.foldl_cons, hstep, ih g name, List.filterMap_cons_none hn]
    | some nm =>
      rw [hn] at hstep
      rw [List.foldl_cons, hstep, ih (bump_both g nm) name, List.filterMap_cons_some hn]
      by_cases hnm : name = nm
      · subst hnm
        simp [bump_both, List.count_cons]
        omega
      · have hne : (name == nm) = false := by
          simpa using hnm
        simp [bump_both, hnm, List.count_cons, hne]

/-- Evaluation of the top-level toolUse block. -/
theorem top_tool_usage_eval (f : String → Nat × Nat) (m : ClaudeMessage) (name : String) :
    (top_tool_usage f m) name =
      ((f name).1 + (if top_tool_name m = some name then 1 else 0),
       (f name).2 +
         (if top_tool_name m = some name ∧ result_present_not_error m = true
          then 1 else 0)) := by
  unfold top_tool_usage top_tool_name result_present_not_error
  cases m.tool_use.bind (fun tu => (tu.getKey "name").bind Json.asStr) with
  | none => simp
  | some nm =>
    by_cases hnm : nm = name
    · subst hnm
      cases m.tool_use_result with
      | none => simp [bump_usage]
      | some result =>
        by_cases herr : ((result.getKey "is_error").bind Json.asBool).getD false
        · simp [herr, bump_usage]
        · simp [herr, bump_success, bump_usage]
    · have h1 : ¬(some nm = some name) := by simpa using hnm
      have h2 : ¬(name = nm) := fun h => hnm h.symm
      cases m.tool_use_result with
      | none => simp [bump_usage, h1, h2]
      | some result =>
        by_cases herr : ((result.getKey "is_error").bind Json.asBool).getD false
        · simp [herr, bump_usage, h1, h2]
        · simp [herr, bump_success, bump_usage, h1, h2]

/-- C6 (amended): per record, the usage count of a tool name grows by the
number of assistant-content `tool_use` items with that name PLUS one if the
top-level `toolUse` carries that name; the success count grows by the same
content-item count (content items always count as successes, even with an
error result) plus one for the top-level `toolUse` only when a
`toolUseResult` is present and not an error (an absent result does NOT count
as a success). -/
theorem c6_amended (f : String → Nat × Nat) (m : ClaudeMessage) (name : String) :
    record_tool_usage f m name =
      ((f name).1 + (content_tool_names m).count name +
         (if top_tool_name m = some name then 1 else 0),
       (f name).2 + (content_tool_names m).count name +
         (if top_tool_name m = some name ∧ result_present_not_error m = true
          then 1 else 0)) := by
  unfold record_tool_usage
  rw [top_tool_usage_eval]
  have hc : (content_tool_usage f m) name =
      ((f name).1 + (content_tool_names m).count name,
       (f name).2 + (content_tool_names m).count name) := by
    unfold content_tool_usage content_tool_names
    by_cases ha : (m.message_type == "assistant") = true
    · rw [if_pos ha, if_pos ha]
      cases m.content.bind Json.asArr with
      | none => simp
      | some items => exact content_fold_eval items f name
    · rw [if_neg ha, if_neg ha]
      simp
  rw [hc]

/-! ## Daily session counts in `get_project_stats_summary` (C7) -/

/-- The slice of one record that the date bookkeeping of
`process_session_file_for_project_stats` reads: whether the line decodes and
converts (`RawLogEntry` parse + `ClaudeMessage::try_from`), and the parsed
timestamp as an abstract instant paired with its formatted `%Y-%m-%d` day
(`none` when `parse_from_rfc3339` fails). -/
structure StatLine where
  accepted : Bool
  time : Option (Nat × String)

/-- Insertion into a `HashSet<String>`, modelled as a duplicate-free list. -/
def set_insert (s : List String) (d : String) : List String :=
  if d ∈ s then s else s ++ [d]

/-- The per-file date set (stats.rs:273-274).  The same records feed the keys
of the per-file `daily_stats` map, so this is also the key set of that map. -/
def file_dates (f : List StatLine) : List String :=
  f.foldl (fun s l => match l with
    | ⟨true, some (_, d)⟩ => set_insert s d
    | _ => s) []

/-- Stable ascending insertion by instant (`Vec::sort` on timestamps). -/
def insert_asc (x : Nat × String) : List (Nat × String) → List (Nat × String)
  | [] => [x]
  | y :: ys => if x.1 < y.1 then x :: y :: ys else y :: insert_asc x ys

/-- `stats.timestamps` after the scan: the accepted records' parsed
timestamps, sorted ascending (stats.rs:344-370; the code sorts only when two
or more are present, which agrees with unconditional sorting). -/
def file_timestamps (f : List StatLine) : List (Nat × String) :=
  (f.foldl (fun acc l => match l with
    | ⟨true, some t⟩ => acc ++ [t]
    | _ => acc) []).foldl (fun acc t => insert_asc t acc) []

/-- The day of `stats.timestamps[0]`, used at stats.rs:931-935. -/
def file_first_date (f : List StatLine) : Option String :=
  (file_timestamps f).head?.map Prod.snd

/-- The aggregated `session_dates : HashSet<String>` of
`get_project_stats_summary` (stats.rs:884, 923-924, 931-935): the union of
all per-file date sets plus each file's first date. -/
def project_session_dates (files : List (List StatLine)) : List String :=
  files.foldl (fun s f =>
    let s := (file_dates f).foldl set_insert s
    match file_first_date f with
    | some d => set_insert s d
    | none => s) []

/-- The aggregated key set of `daily_stats_map` (stats.rs:902-914). -/
def project_daily_dates (files : List (List StatLine)) : List String :=
  files.foldl (fun s f => (file_dates f).foldl set_insert s) []

/-- `daily_stat.session_count` as computed at stats.rs:939-940:
`session_dates.iter().filter(|&d| d == date).count()` over the `HashSet`. -/
def project_daily_session_count (files : List (List StatLine)) (d : String) : Nat :=
  (project_session_dates files).count d

/-- `daily_stats[d].session_count` as C7 claims it: the number of sessions
whose first message falls on day `d`. -/
def spec_daily_session_count (files : List (List StatLine)) (d : String) : Nat :=
  files.countP (fun f => file_first_date f == some d)

/-- First session file of the C7 failing input. -/
def c7File1 : List StatLine := [⟨true, some (100, "2025-01-01")⟩]

/-- Second session file of the C7 failing input. -/
def c7File2 : List StatLine := [⟨true, some (200, "2025-01-01")⟩]

/-- C7: two sessions whose first messages fall on the same day.  The claim
(and the spec) demand `session_count = 2` for that day, but the code counts
occurrences of the day inside a `HashSet`, so it returns 1 for every date
present in `daily_stats`.  The day is a key of `daily_stats`, so the claim
applies to it. -/
theorem c7_bug_eval :
    project_daily_session_count [c7File1, c7File2] "2025-01-01" = 1 ∧
    spec_daily_session_count [c7File1, c7File2] "2025-01-01" = 2 ∧
    "2025-01-01" ∈ project_daily_dates [c7File1, c7File2] := by
  refine ⟨rfl, rfl, by decide⟩

/-! ## Reverse pagination (`load_session_messages_paginated`, C2) -/

/-- `parse_line_simd` (load.rs:924-1058) as used by the pager and the message
loader (`include_summary == false` at both call sites): the line must decode
under the full `RawLogEntry` decoder (level 4), must not be meta, must not be
a summary, and must carry a sessionId or timestamp.  The produced
`ClaudeMessage` is represented by the record itself. -/
def parse_line_simd (l : Line) : Option RawRec :=
  match l with
  | .blank => none
  | .raw lvl r =>
    if lvl < 4 then none
    else if r.is_meta.getD false then none
    else if r.message_type == "summary" then none
    else if r.session_id.isNone && r.timestamp.isNone then none
    else some r

/-- `MessagePage` from the models crate. -/
structure MessagePage where
  messages : List RawRec
  total_count : Nat
  has_more : Bool
  next_offset : Nat

/-- `load_session_messages_paginated` from `commands/session/load.rs`
(lines 1146-1237).  Phase 1 records the indices of the classifier-accepted
lines (modelled by keeping the index/line pairs); phase 2 decodes the slice
`[start_idx, end_idx)` of those indices and sorts by line number, which
returns them in index order, as modelled by slicing the index-ordered pair
list directly. -/
def load_session_messages_paginated (lines : List Line) (offset limit : Nat)
    (exclude_sidechain : Bool) : MessagePage :=
  let valid_pairs := lines.enum.filter (fun p => classify_line_fast p.2 exclude_sidechain)
  let total_count := valid_pairs.length
  if total_count = 0 then
    { messages := [], total_count := 0, has_more := false, next_offset := 0 }
  else
    let already_loaded := offset
    let remaining_messages := total_count - already_loaded
    let messages_to_load := min limit remaining_messages
    let start_idx := if remaining_messages = 0 then 0
      else total_count - already_loaded - messages_to_load
    let end_idx := if remaining_messages = 0 then 0 else total_count - already_loaded
    let target := (valid_pairs.drop start_idx).take (end_idx - start_idx)
    let msgs := target.filterMap (fun p => parse_line_simd p.2)
    { messages := msgs
      total_count := total_count
      has_more := decide (0 < start_idx)
      next_offset := offset + msgs.length }

/-- The records of a file that C2 calls valid (spec §3 validity plus the
sidechain filter), in original order. -/
def spec_valid_records (lines : List Line) (exclude_sidechain : Bool) : List RawRec :=
  lines.filterMap (fun l => match l with
    | .blank => none
    | .raw _ r => if spec_valid_record exclude_sidechain r then some r else none)

/-- The page of valid records claimed by C2: indices
`[max(0, total − offset − limit), total − offset)` of the valid-record
sequence. -/
def spec_page_messages (lines : List Line) (offset limit : Nat)
    (exclude_sidechain : Bool) : List RawRec :=
  let recs := spec_valid_records lines exclude_sidechain
  let total := recs.length
  (recs.drop (total - offset - limit)).take ((total - offset) - (total - offset - limit))

/-- A record `{"type":"user","sessionId":"s"}`: classifier-accepted and fully
decodable. -/
def sessionedUserRec : RawRec :=
  { message_type := "user"
    session_id := some "s"
    timestamp := none
    is_sidechain := none
    is_meta := none
    summary := none
    tool_use := none
    tool_use_result := none
    content := none
    raw_tool_use_probe := false
    raw_stderr_probe := false }

/-- C2 counterexample: a file holding a decodable valid record followed by a
record that the classifier accepts but the full decoder rejects (no
sessionId/timestamp).  Requesting the newest message returns the empty page,
while the claim demands the page `[sessionedUserRec]` of valid records. -/
theorem c2_counterexample :
    (load_session_messages_paginated
        [Line.raw 4 sessionedUserRec, Line.raw 4 idlessUserRec] 0 1 false).messages = [] ∧
    spec_page_messages
        [Line.raw 4 sessionedUserRec, Line.raw 4 idlessUserRec] 0 1 false =
      [sessionedUserRec] ∧
    ([] : List RawRec) ≠ [sessionedUserRec] := by
  refine ⟨rfl, rfl, fun h => by simp at h⟩

/-- The classifier-accepted lines of a file, in order. -/
def classified_lines (lines : List Line) (exclude_sidechain : Bool) : List Line :=
  lines.filter (fun l => classify_line_fast l exclude_sidechain)

/-- The window of classified lines that phase 2 decodes, in the closed form
`[total − offset − limit, total − offset)` (saturating). -/
def c2_window (cls : List Line) (offset limit : Nat) : List Line :=
  (cls.drop (cls.length - offset - limit)).take
    ((cls.length - offset) - (cls.length - offset - limit))

/-- The classified index/line pairs project to the classified lines. -/
theorem valid_pairs_map_snd (lines : List Line) (exclude_sidechain : Bool) :
    (lines.enum.filter (fun p => classify_line_fast p.2 exclude_sidechain)).map Prod.snd =
      classified_lines lines exclude_sidechain := by
  rw [classified_lines]
  conv_rhs => rw [← List.enum_map_snd lines, List.filter_map]
  rfl

/-- `filterMap` of an everywhere-defined partial map keeps the length. -/
theorem filterMap_length_all_some {α β : Type} (f : α → Option β) :
    ∀ (xs : List α), (∀ x ∈ xs, (f x).isSome) → (xs.filterMap f).length = xs.length := by
  intro xs
  induction xs with
  | nil => intro _; rfl
  | cons x rest ih =>
    intro h
    have hx := h x (List.mem_cons_self x rest)
    cases hf : f x with
    | none => rw [hf] at hx; exact absurd hx (by simp)
    | some b =>
      rw [List.filterMap_cons_some hf, List.length_cons, List.length_cons,
        ih (fun y hy => h y (List.mem_cons_of_mem x hy))]

/-- Decoding the classified pairs is decoding their lines. -/
theorem filterMap_snd_pairs (ps : List (Nat × Line)) :
    ps.filterMap (fun p => parse_line_simd p.2) =
      (ps.map Prod.snd).filterMap parse_line_simd := by
  rw [List.filterMap_map]
  rfl

/-- Closed form of the whole pager result. -/
theorem paginated_eval (lines : List Line) (offset limit : Nat) (exclude_sidechain : Bool) :
    load_session_messages_paginated lines offset limit exclude_sidechain =
      { messages := (c2_window (classified_lines lines exclude_sidechain) offset limit).filterMap
          parse_line_simd
        total_count := (classified_lines lines exclude_sidechain).length
        has_more := decide
          (0 < (classified_lines lines exclude_sidechain).length - offset - limit)
        next_offset := if (classified_lines lines exclude_sidechain).length = 0 then 0
          else offset +
            ((c2_window (classified_lines lines exclude_sidechain) offset limit).filterMap
              parse_line_simd).length } := by
  have hvp := valid_pairs_map_snd lines exclude_sidechain
  simp only [load_session_messages_paginated]
  set A := lines.enum.filter (fun p => classify_line_fast p.2 exclude_sidechain) with hA
  set cls := classified_lines lines exclude_sidechain with hcls
  have hlen : A.length = cls.length := by rw [← hvp, List.length_map]
  by_cases h0 : A.length = 0
  · rw [if_pos h0]
    have hT : cls.length = 0 := by omega
    have hclsnil : cls = [] := List.length_eq_zero.mp hT
    simp [hclsnil, c2_window, hT]
  · rw [if_neg h0]
    have hT : cls.length ≠ 0 := by omega
    by_cases hrem : A.length - offset = 0
    · simp only [if_pos hrem]
      have hw : c2_window cls offset limit = [] := by
        rw [c2_window]
        have h1 : (cls.length - offset) - (cls.length - offset - limit) = 0 := by omega
        rw [h1, List.take_zero]
      simp only [MessagePage.mk.injEq]
      refine ⟨?_, hlen, ?_, ?_⟩
      · rw [hw]
        simp
      · rw [decide_eq_decide]
        omega
      · rw [if_neg hT, hw]
        simp
    · simp only [if_neg hrem]
      have hstart : A.length - offset - min limit (A.length - offset) =
          cls.length - offset - limit := by omega
      have hend : A.length - offset = cls.length - offset := by omega
      rw [hstart, hend]
      simp only [MessagePage.mk.injEq]
      refine ⟨?_, hlen, trivial, ?_⟩
      · rw [filterMap_snd_pairs, List.map_take, List.map_drop, hvp, c2_window]
      · rw [if_neg hT, filterMap_snd_pairs, List.map_take, List.map_drop, hvp, c2_window]

/-- C2 (amended): `total_count` counts the classifier-accepted lines (no
sessionId/timestamp requirement); the returned page consists of those records
in the window `[total − offset − limit, total − offset)` of the classified
sequence that ALSO fully decode, in original order; `next_offset` is
`offset + returned_count` (0 for an empty file); `has_more` holds exactly
when the window start is positive; and when every classified record fully
decodes, the page length is `min limit (total − offset)` and consecutive
windows tile the reversed sequence without overlap or gap
(`total − next_offset` equals this window's start index). -/
theorem c2_amended (lines : List Line) (offset limit : Nat) (exclude_sidechain : Bool) :
    (load_session_messages_paginated lines offset limit exclude_sidechain).total_count =
      (classified_lines lines exclude_sidechain).length ∧
    (load_session_messages_paginated lines offset limit exclude_sidechain).messages =
      (c2_window (classified_lines lines exclude_sidechain) offset limit).filterMap
        parse_line_simd ∧
    (load_session_messages_paginated lines offset limit exclude_sidechain).next_offset =
      (if (classified_lines lines exclude_sidechain).length = 0 then 0
       else offset +
        (load_session_messages_paginated lines offset limit exclude_sidechain).messages.length) ∧
    (load_session_messages_paginated lines offset limit exclude_sidechain).has_more =
      decide (0 < (classified_lines lines exclude_sidechain).length - offset - limit) ∧
    ((∀ l ∈ classified_lines lines exclude_sidechain, (parse_line_simd l).isSome) →
      (load_session_messages_paginated lines offset limit exclude_sidechain).messages.length =
        min limit ((classified_lines lines exclude_sidechain).length - offset) ∧
      (classified_lines lines exclude_sidechain).length -
          (load_session_messages_paginated lines offset limit exclude_sidechain).next_offset =
        (classified_lines lines exclude_sidechain).length - offset - limit) := by
  set cls := classified_lines lines exclude_sidechain with hcls
  have hm : (load_session_messages_paginated lines offset limit exclude_sidechain).messages =
      (c2_window cls offset limit).filterMap parse_line_simd := by rw [paginated_eval]
  have ht : (load_session_messages_paginated lines offset limit exclude_sidechain).total_count =
      cls.length := by rw [paginated_eval]
  have hh : (load_session_messages_paginated lines offset limit exclude_sidechain).has_more =
      decide (0 < cls.length - offset - limit) := by rw [paginated_eval]
  have hn : (load_session_messages_paginated lines offset limit exclude_sidechain).next_offset =
      (if cls.length = 0 then 0
       else offset + ((c2_window cls offset limit).filterMap parse_line_simd).length) := by
    rw [paginated_eval]
  refine ⟨ht, hm, ?_, hh, fun hdec => ?_⟩
  · rw [hn, hm]
  · have hsub : ∀ x ∈ c2_window cls offset limit, x ∈ cls := by
      intro x hx
      rw [c2_window] at hx
      exact List.drop_subset _ cls (List.take_subset _ _ hx)
    have hlenw := filterMap_length_all_some parse_line_simd (c2_window cls offset limit)
      (fun x hx => hdec x (hsub x hx))
    have hwl : (c2_window cls offset limit).length = min limit (cls.length - offset) := by
      rw [c2_window, List.length_take, List.length_drop]
      omega
    constructor
    · rw [hm, hlenw, hwl]
    · by_cases hT : cls.length = 0
      · rw [hn, if_pos hT]
        omega
      · rw [hn, if_neg hT, hlenw, hwl]
        omega

/-- C2 witness: the amended page laws at a concrete fully-decodable file. -/
theorem c2_amended_witness :
    (load_session_messages_paginated [Line.raw 4 sessionedUserRec] 0 1 false).messages.length =
      min 1 ((classified_lines [Line.raw 4 sessionedUserRec] false).length - 0) :=
  ((c2_amended [Line.raw 4 sessionedUserRec] 0 1 false).2.2.2.2 (by decide)).1

/-! ## The two-phase session extractor (`extract_session_metadata_internal`, C9/C10)

String helpers from the Rust standard library (`str::trim`,
`str::starts_with`, `str::is_empty`, `chars().count()/take()`) are modelled
over the character list of the string (whitespace = ASCII space/tab/CR/LF),
keeping every definition kernel-computable. -/

/-- `METADATA_PHASE_LINES` from `commands/session/load.rs`. -/
def METADATA_PHASE_LINES : Nat := 100

/-- `SYSTEM_PHRASES` from `is_genuine_user_text` (load.rs:517-522). -/
def SYSTEM_PHRASES : List String :=
  ["Session Cleared", "session cleared", "Caveat:", "Tool execution"]

/-- ASCII whitespace (model of the characters `str::trim` removes). -/
def is_whitespace (c : Char) : Bool :=
  c == ' ' || c == '\t' || c == '\n' || c == '\r'

/-- Model of `text.trim()` as a character list. -/
def trimmed_chars (s : String) : List Char :=
  ((s.toList.dropWhile is_whitespace).reverse.dropWhile is_whitespace).reverse

/-- `is_genuine_user_text` from `commands/session/load.rs` (lines 507-529). -/
def is_genuine_user_text (text : String) : Bool :=
  let t := trimmed_chars text
  if t.isEmpty then false
  else if List.isPrefixOf ("<".toList) t then false
  else if SYSTEM_PHRASES.any (fun phrase => List.isPrefixOf phrase.toList t) then false
  else true

/-- `truncate_text` from `commands/session/load.rs` (lines 531-538). -/
def truncate_text (text : String) (max_chars : Nat) : String :=
  if max_chars < text.toList.length then String.mk (text.toList.take max_chars) ++ "..."
  else text

/-- `extract_user_text` from `commands/session/load.rs` (lines 541-566). -/
def extract_user_text (content : Json) : Option String :=
  match content with
  | .str text =>
    if is_genuine_user_text text then some (truncate_text text 100) else none
  | .arr items =>
    items.findSome? (fun item =>
      match (item.getKey "type").bind Json.asStr with
      | some item_type =>
        if item_type = "text" then
          match (item.getKey "text").bind Json.asStr with
          | some text =>
            if is_genuine_user_text text then some (truncate_text text 100) else none
          | none => none
        else none
      | none => none)
  | _ => none

/-- The mutable locals of `extract_session_metadata_internal`
(load.rs:209-251), gathered into one state record. -/
structure ExtractState where
  message_count : Nat
  sidechain_count : Nat
  first_timestamp : Option String
  last_timestamp : Option String
  actual_session_id : Option String
  session_summary : Option String
  has_tool_use : Bool
  has_errors : Bool
  first_user_content : Option String
  metadata_complete : Bool
  lines_processed : Nat

/-- Phase-1 timestamp tracking (load.rs:299-305). -/
def p1_timestamps (st : ExtractState) (r : RawRec) : ExtractState :=
  match r.timestamp with
  | some ts =>
    let st := if st.first_timestamp.isNone then { st with first_timestamp := some ts } else st
    { st with last_timestamp := some ts }
  | none => st

/-- Phase-1 session-id tracking (load.rs:307-312). -/
def p1_session_id (st : ExtractState) (r : RawRec) : ExtractState :=
  if st.actual_session_id.isNone then
    match r.session_id with
    | some sid => { st with actual_session_id := some sid }
    | none => st
  else st

/-- Phase-1 tool-use detection (load.rs:314-334). -/
def p1_tool_use (st : ExtractState) (r : RawRec) : ExtractState :=
  if !st.has_tool_use then
    if r.tool_use.isSome || r.tool_use_result.isSome then { st with has_tool_use := true }
    else if r.message_type == "assistant" then
      match r.content with
      | some content =>
        match content.asArr with
        | some items =>
          if items.any (fun item => (item.getKey "type").bind Json.asStr == some "tool_use")
          then { st with has_tool_use := true }
          else st
        | none => st
      | none => st
    else st
  else st

/-- Phase-1 error detection (load.rs:336-345). -/
def p1_errors (st : ExtractState) (r : RawRec) : ExtractState :=
  if !st.has_errors then
    match r.tool_use_result with
    | some result =>
      match result.getKey "stderr" with
      | some stderr =>
        if (stderr.asStr.getD "") ≠ "" then { st with has_errors := true } else st
      | none => st
    | none => st
  else st

/-- Phase-1 first-user-text capture (load.rs:347-354). -/
def p1_first_user (st : ExtractState) (r : RawRec) : ExtractState :=
  if st.first_user_content.isNone && r.message_type == "user" then
    match r.content with
    | some content => { st with first_user_content := extract_user_text content }
    | none => st
  else st

/-- Phase-1 completeness check (load.rs:356-362). -/
def p1_complete (st : ExtractState) : ExtractState :=
  if st.actual_session_id.isSome && st.first_timestamp.isSome &&
      (st.first_user_content.isSome || st.session_summary.isSome) then
    { st with metadata_complete := true }
  else st

/-- The non-counting updates of the phase-1 body (load.rs:299-362), applied
after the two counters have been bumped, in source order. -/
def phase1_rest (st : ExtractState) (r : RawRec) : ExtractState :=
  p1_complete (p1_first_user (p1_errors (p1_tool_use (p1_session_id (p1_timestamps st r) r) r) r) r)

/-- The phase-1 body (load.rs:268-363), entered when the
`SessionMetadataEntry` decoder (level ≥ 3) accepts the line. -/
def phase1_body (st : ExtractState) (r : RawRec) : ExtractState :=
  if r.message_type == "summary" then
    if st.session_summary.isNone then { st with session_summary := r.summary } else st
  else if is_system_message_type r.message_type then st
  else if r.session_id.isNone && r.timestamp.isNone then st
  else if r.is_meta.getD false then st
  else
    phase1_rest
      { st with
        sidechain_count := st.sidechain_count + (if r.is_sidechain.getD false then 1 else 0)
        message_count := st.message_count + 1 } r

/-- The phase-2 body (load.rs:368-420), entered when the
`QuickLineClassifier` decoder (level ≥ 2) accepts the line; the summary
recapture re-parses with the richer decoder (level ≥ 3). -/
def phase2_body (st : ExtractState) (lvl : Nat) (r : RawRec) : ExtractState :=
  if r.message_type == "summary" then
    if st.session_summary.isNone && decide (3 ≤ lvl) then { st with session_summary := r.summary }
    else st
  else if is_system_message_type r.message_type then st
  else if r.session_id.isNone && r.timestamp.isNone then st
  else if r.is_meta.getD false then st
  else
    let st := { st with
      sidechain_count := st.sidechain_count + (if r.is_sidechain.getD false then 1 else 0)
      message_count := st.message_count + 1 }
    let st := match r.timestamp with
      | some ts => { st with last_timestamp := some ts }
      | none => st
    let st := if !st.has_tool_use && r.raw_tool_use_probe then { st with has_tool_use := true }
      else st
    if !st.has_errors && r.raw_stderr_probe then { st with has_errors := true } else st

/-- One loop iteration of `extract_session_metadata_internal`
(load.rs:254-421): blank lines are skipped before the line counter, then the
phase is chosen by `metadata_complete` and the line budget. -/
def extract_line_step (st : ExtractState) (l : Line) : ExtractState :=
  match l with
  | .blank => st
  | .raw lvl r =>
    let st1 := { st with lines_processed := st.lines_processed + 1 }
    if !st1.metadata_complete && decide (st1.lines_processed ≤ METADATA_PHASE_LINES) then
      if decide (3 ≤ lvl) then phase1_body st1 r else st1
    else
      if decide (2 ≤ lvl) then phase2_body st1 lvl r else st1

/-- The whole scan loop. -/
def run_extract (init : ExtractState) (lines : List Line) : ExtractState :=
  lines.foldl extract_line_step init

/-- The fresh-parse initial state (load.rs:233-237). -/
def fresh_extract_state : ExtractState :=
  { message_count := 0
    sidechain_count := 0
    first_timestamp := none
    last_timestamp := none
    actual_session_id := none
    session_summary := none
    has_tool_use := false
    has_errors := false
    first_user_content := none
    metadata_complete := false
    lines_processed := 0 }

/-- The initial state of an incremental parse (load.rs:220-232, 249-250):
the counters are resumed and the metadata phase is skipped. -/
def incremental_extract_state (state : IncrementalParseState) : ExtractState :=
  { message_count := state.message_count
    sidechain_count := state.sidechain_count
    first_timestamp := state.first_timestamp
    last_timestamp := state.last_timestamp
    actual_session_id := state.session_id
    session_summary := state.summary
    has_tool_use := state.has_tool_use
    has_errors := state.has_errors
    first_user_content := state.first_user_content
    metadata_complete := true
    lines_processed := 0 }

/-- `SessionExtractionResult` from `commands/session/load.rs`. -/
structure SessionExtractionResult where
  session : ClaudeSession
  sidechain_count : Nat
  final_byte_offset : Nat
  has_tool_use : Bool
  has_errors : Bool

/-- The result assembly of `extract_session_metadata_internal`
(load.rs:423-457); `now_ts` stands for `Utc::now().to_rfc3339()`. -/
def extract_session_metadata (init : ExtractState) (lines : List Line)
    (file_path project_name last_modified now_ts : String) (file_size : Nat) :
    Option SessionExtractionResult :=
  let st := run_extract init lines
  if st.message_count = 0 then none
  else some
    { session :=
        { session_id := file_path
          actual_session_id := st.actual_session_id.getD "unknown-session"
          file_path := file_path
          project_name := project_name
          message_count := st.message_count
          first_message_time := st.first_timestamp.getD now_ts
          last_message_time := st.last_timestamp.getD now_ts
          last_modified := last_modified
          has_tool_use := st.has_tool_use
          has_errors := st.has_errors
          summary := match st.session_summary with
            | some s => some s
            | none => st.first_user_content }
      sidechain_count := st.sidechain_count
      final_byte_offset := file_size
      has_tool_use := st.has_tool_use
      has_errors := st.has_errors }

/-- The non-counting phase-1 updates leave both counters unchanged. -/
theorem phase1_rest_counts (st : ExtractState) (r : RawRec) :
    (phase1_rest st r).message_count = st.message_count ∧
    (phase1_rest st r).sidechain_count = st.sidechain_count := by
  have h1 : ∀ s, (p1_timestamps s r).message_count = s.message_count ∧
      (p1_timestamps s r).sidechain_count = s.sidechain_count := by
    intro s; unfold p1_timestamps
    split
    · split <;> simp
    · simp
  have h2 : ∀ s, (p1_session_id s r).message_count = s.message_count ∧
      (p1_session_id s r).sidechain_count = s.sidechain_count := by
    intro s; unfold p1_session_id
    split
    · split <;> simp
    · simp
  have h3 : ∀ s, (p1_tool_use s r).message_count = s.message_count ∧
      (p1_tool_use s r).sidechain_count = s.sidechain_count := by
    intro s; unfold p1_tool_use
    repeat' split
    all_goals simp
  have h4 : ∀ s, (p1_errors s r).message_count = s.message_count ∧
      (p1_errors s r).sidechain_count = s.sidechain_count := by
    intro s; unfold p1_errors
    repeat' split
    all_goals simp
  have h5 : ∀ s, (p1_first_user s r).message_count = s.message_count ∧
      (p1_first_user s r).sidechain_count = s.sidechain_count := by
    intro s; unfold p1_first_user
    repeat' split
    all_goals simp
  have h6 : ∀ s, (p1_complete s).message_count = s.message_count ∧
      (p1_complete s).sidechain_count = s.sidechain_count := by
    intro s; unfold p1_complete; split <;> simp
  unfold phase1_rest
  constructor
  · rw [(h6 _).1, (h5 _).1, (h4 _).1, (h3 _).1, (h2 _).1, (h1 _).1]
  · rw [(h6 _).2, (h5 _).2, (h4 _).2, (h3 _).2, (h2 _).2, (h1 _).2]

/-- The guard chain shared by both phase bodies: the record counts exactly
when it is no summary, not system-excluded, carries an id or timestamp, and
is not meta. -/
def loader_valid_rec (r : RawRec) : Bool :=
  if r.message_type == "summary" then false
  else if is_system_message_type r.message_type then false
  else if r.session_id.isNone && r.timestamp.isNone then false
  else if r.is_meta.getD false then false
  else true

/-- Counter effect of the phase-1 body. -/
theorem phase1_body_counts (st : ExtractState) (r : RawRec) :
    (phase1_body st r).message_count =
      st.message_count + (if loader_valid_rec r then 1 else 0) ∧
    (phase1_body st r).sidechain_count =
      st.sidechain_count +
        (if loader_valid_rec r && r.is_sidechain.getD false then 1 else 0) := by
  unfold phase1_body loader_valid_rec
  split
  · rename_i h1
    simp [h1, apply_ite]
  · rename_i h1
    split
    · rename_i h2
      simp [h1, h2]
    · rename_i h2
      split
      · rename_i h3
        simp [h1, h2, h3]
      · rename_i h3
        split
        · rename_i h4
          simp [h1, h2, h3, h4]
        · rename_i h4
          have hc := phase1_rest_counts
            { st with
              sidechain_count := st.sidechain_count + (if r.is_sidechain.getD false then 1 else 0)
              message_count := st.message_count + 1 } r
          rw [hc.1, hc.2]
          simp [h1, h2, h3, h4]

/-- Counter effect of the phase-2 body. -/
theorem phase2_body_counts (st : ExtractState) (lvl : Nat) (r : RawRec) :
    (phase2_body st lvl r).message_count =
      st.message_count + (if loader_valid_rec r then 1 else 0) ∧
    (phase2_body st lvl r).sidechain_count =
      st.sidechain_count +
        (if loader_valid_rec r && r.is_sidechain.getD false then 1 else 0) := by
  unfold phase2_body loader_valid_rec
  split
  · rename_i h1
    simp [h1, apply_ite]
  · rename_i h1
    split
    · rename_i h2
      simp [h1, h2]
    · rename_i h2
      split
      · rename_i h3
        simp [h1, h2, h3]
      · rename_i h3
        split
        · rename_i h4
          simp [h1, h2, h3, h4]
        · rename_i h4
          cases hts : r.timestamp <;> simp only [hts] <;>
            (constructor <;> (repeat' split) <;> simp_all)

/-- One step never lets the sidechain counter overtake the message counter. -/
theorem extract_step_invariant (st : ExtractState) (l : Line)
    (h : st.sidechain_count ≤ st.message_count) :
    (extract_line_step st l).sidechain_count ≤ (extract_line_step st l).message_count := by
  cases l with
  | blank => exact h
  | raw lvl r =>
    simp only [extract_line_step]
    split
    · split
      · have hc := phase1_body_counts { st with lines_processed := st.lines_processed + 1 } r
        rw [hc.1, hc.2]
        by_cases hv : loader_valid_rec r = true <;>
          cases hs : r.is_sidechain.getD false <;>
            simp [hv, hs] <;> omega
      · exact h
    · split
      · have hc := phase2_body_counts { st with lines_processed := st.lines_processed + 1 } lvl r
        rw [hc.1, hc.2]
        by_cases hv : loader_valid_rec r = true <;>
          cases hs : r.is_sidechain.getD false <;>
            simp [hv, hs] <;> omega
      · exact h

/-- C9 (confirmed): for every extraction — fresh or incremental from any
state already satisfying the bound — the sidechain counter never exceeds the
message counter, and consequently the `exclude_sidechain` subtraction
`message_count - sidechain_count` in `load_project_sessions` is exact (never
saturates). -/
theorem c9_sidechain_le (init : ExtractState) (lines : List Line)
    (h : init.sidechain_count ≤ init.message_count) :
    (run_extract init lines).sidechain_count ≤ (run_extract init lines).message_count ∧
    ∀ (res : SessionExtractionResult) (fp pn lm nt : String) (fs : Nat),
      extract_session_metadata init lines fp pn lm nt fs = some res →
      res.sidechain_count ≤ res.session.message_count ∧
      res.session.message_count - res.sidechain_count + res.sidechain_count =
        res.session.message_count := by
  have hrun : ∀ (ls : List Line) (st : ExtractState),
      st.sidechain_count ≤ st.message_count →
      (run_extract st ls).sidechain_count ≤ (run_extract st ls).message_count := by
    intro ls
    induction ls with
    | nil => intro st hst; exact hst
    | cons l rest ih =>
      intro st hst
      exact ih (extract_line_step st l) (extract_step_invariant st l hst)
  have hmain := hrun lines init h
  refine ⟨hmain, ?_⟩
  intro res fp pn lm nt fs hres
  unfold extract_session_metadata at hres
  by_cases h0 : (run_extract init lines).message_count = 0
  · rw [if_pos h0] at hres
    exact absurd hres (by simp)
  · rw [if_neg h0] at hres
    have hres2 := Option.some.injEq _ _ ▸ hres
    have heq : res.sidechain_count = (run_extract init lines).sidechain_count := by
      rw [← hres2]
    have heq2 : res.session.message_count = (run_extract init lines).message_count := by
      rw [← hres2]
    rw [heq, heq2]
    exact ⟨hmain, by omega⟩

/-- C9 witness: the bound at a concrete one-record fresh extraction. -/
theorem c9_witness :
    (run_extract fresh_extract_state [Line.raw 4 sessionedUserRec]).sidechain_count ≤
      (run_extract fresh_extract_state [Line.raw 4 sessionedUserRec]).message_count :=
  (c9_sidechain_le fresh_extract_state [Line.raw 4 sessionedUserRec] (by decide)).1

/-! ## Aggregator counting vs loader counting (C10) -/

/-- Modelled from the spec: the statistics aggregator accepts a line when the
full `RawLogEntry` decoder accepts it (level 4; the struct itself lives in
the models crate file absent from this tree, its field requirements follow
spec §3) and `ClaudeMessage::try_from` (stats.rs:1172-1239) does not reject
it — i.e. the type is not `summary` and a sessionId or timestamp is
present. -/
def stats_accepts : Line → Bool
  | .blank => false
  | .raw lvl r =>
    decide (4 ≤ lvl) && !(r.message_type == "summary") &&
      (r.session_id.isSome || r.timestamp.isSome)

/-- `total_messages` of the per-file aggregator scans (stats.rs:71-73 and
253-255): one per accepted line. -/
def stats_total_messages (lines : List Line) : Nat :=
  lines.countP stats_accepts

/-- Whether a line is counted by the loader's extractor. -/
def loader_counts_line : Line → Bool
  | .blank => false
  | .raw _ r => loader_valid_rec r

/-- Every record line of the file decodes under the strictest decoder. -/
def all_lvl4 : Line → Bool
  | .blank => true
  | .raw lvl _ => lvl == 4

/-- A record of a system-excluded type or with `isMeta`, carrying an id or
timestamp (and not a summary): counted by the aggregator, skipped by the
loader. -/
def system_or_meta_with_ids : Line → Bool
  | .blank => false
  | .raw _ r =>
    (is_system_message_type r.message_type || r.is_meta.getD false) &&
      !(r.message_type == "summary") && (r.session_id.isSome || r.timestamp.isSome)

/-- On a fully-decodable line the step counts exactly the guard predicate. -/
theorem extract_step_count_lvl4 (st : ExtractState) (r : RawRec) :
    (extract_line_step st (Line.raw 4 r)).message_count =
      st.message_count + (if loader_valid_rec r then 1 else 0) := by
  simp only [extract_line_step]
  split
  · rw [if_pos (show decide (3 ≤ 4) = true by rfl)]
    exact (phase1_body_counts { st with lines_processed := st.lines_processed + 1 } r).1
  · rw [if_pos (show decide (2 ≤ 4) = true by rfl)]
    exact (phase2_body_counts { st with lines_processed := st.lines_processed + 1 } 4 r).1

/-- Over a fully-decodable file the extractor's message count is the number
of guard-passing lines. -/
theorem run_extract_count_lvl4 :
    ∀ (lines : List Line), (∀ l ∈ lines, all_lvl4 l = true) →
      ∀ (init : ExtractState),
        (run_extract init lines).message_count =
          init.message_count + lines.countP loader_counts_line := by
  intro lines
  induction lines with
  | nil => intro _ init; simp [run_extract]
  | cons l rest ih =>
    intro h4 init
    have hrest := ih (fun x hx => h4 x (List.mem_cons_of_mem l hx))
    cases l with
    | blank =>
      show (run_extract (extract_line_step init Line.blank) rest).message_count = _
      rw [hrest (extract_line_step init Line.blank)]
      simp [extract_line_step, List.countP_cons, loader_counts_line]
    | raw lvl r =>
      have hl : lvl = 4 := by
        have := h4 (Line.raw lvl r) (List.mem_cons_self _ _)
        simpa [all_lvl4] using this
      subst hl
      show (run_extract (extract_line_step init (Line.raw 4 r)) rest).message_count = _
      rw [hrest _, extract_step_count_lvl4, List.countP_cons]
      have : loader_counts_line (Line.raw 4 r) = loader_valid_rec r := rfl
      rw [this]
      omega

/-- Strict count comparison in the presence of a separating witness. -/
theorem countP_lt_of_witness {α : Type} (p q : α → Bool) :
    ∀ (l : List α), (∀ a ∈ l, p a = true → q a = true) →
      (∃ a, a ∈ l ∧ q a = true ∧ p a = false) →
      l.countP p < l.countP q := by
  intro l
  induction l with
  | nil =>
    rintro _ ⟨a, ha, _⟩
    exact absurd ha (List.not_mem_nil a)
  | cons x rest ih =>
    rintro hpq ⟨a, ha, hqa, hpa⟩
    rw [List.countP_cons, List.countP_cons]
    rcases List.mem_cons.mp ha with rfl | ha2
    · have hle : rest.countP p ≤ rest.countP q :=
        List.countP_mono_left (fun b hb hpb => hpq b (List.mem_cons_of_mem _ hb) hpb)
      simp [hqa, hpa]
      omega
    · have hlt := ih (fun b hb hpb => hpq b (List.mem_cons_of_mem _ hb) hpb) ⟨a, ha2, hqa, hpa⟩
      have hx : (if p x then 1 else 0) ≤ (if q x then 1 else 0) := by
        by_cases hpx : p x = true
        · simp [hpx, hpq x (List.mem_cons_self _ _) hpx]
        · simp [hpx]
      omega

/-- Pointwise: a loader-counted fully-decodable line is aggregator-counted. -/
theorem loader_le_stats_line (l : Line) (h4l : all_lvl4 l = true)
    (hp : loader_counts_line l = true) : stats_accepts l = true := by
  cases l with
  | blank => exact absurd hp (by simp [loader_counts_line])
  | raw lvl r =>
    have hlvl : lvl = 4 := by simpa [all_lvl4] using h4l
    subst hlvl
    simp only [loader_counts_line, loader_valid_rec] at hp
    by_cases g1 : (r.message_type == "summary") = true
    · rw [if_pos g1] at hp; exact absurd hp (by simp)
    · rw [if_neg g1] at hp
      by_cases g2 : is_system_message_type r.message_type = true
      · rw [if_pos g2] at hp; exact absurd hp (by simp)
      · rw [if_neg g2] at hp
        by_cases g3 : (r.session_id.isNone && r.timestamp.isNone) = true
        · rw [if_pos g3] at hp; exact absurd hp (by simp)
        · have hids : (r.session_id.isSome || r.timestamp.isSome) = true := by
            cases hsid : r.session_id <;> cases hts : r.timestamp <;> simp_all
          simp [stats_accepts, g1, hids]

/-- Pointwise: a separating record is aggregator-counted but loader-skipped. -/
theorem witness_line_props (l : Line) (h4l : all_lvl4 l = true)
    (hw : system_or_meta_with_ids l = true) :
    stats_accepts l = true ∧ loader_counts_line l = false := by
  cases l with
  | blank => exact absurd hw (by simp [system_or_meta_with_ids])
  | raw lvl r =>
    have hlvl : lvl = 4 := by simpa [all_lvl4] using h4l
    subst hlvl
    simp only [system_or_meta_with_ids, Bool.and_eq_true, Bool.or_eq_true] at hw
    obtain ⟨⟨hsm, hnsum⟩, hids⟩ := hw
    have h1 : ¬((r.message_type == "summary") = true) := by simp_all
    constructor
    · simp [stats_accepts, hids]
      simp_all
    · simp only [loader_counts_line, loader_valid_rec]
      rcases hsm with hs | hm
      · rw [if_neg h1, if_pos hs]
      · by_cases g2 : is_system_message_type r.message_type = true
        · rw [if_neg h1, if_pos g2]
        · have g3 : ¬((r.session_id.isNone && r.timestamp.isNone) = true) := by
            cases hsid : r.session_id <;> cases hts : r.timestamp <;> simp_all
          rw [if_neg h1, if_neg g2, if_neg g3, if_pos hm]

/-- The record `{"type":"user","sessionId":"s","message":{"content":"hi"}}`:
its nested message lacks the `role` the full decoder requires, so it decodes
only up to level 3 — the loader counts it, the aggregator cannot parse it. -/
def roleLessUserRec : RawRec :=
  { message_type := "user"
    session_id := some "s"
    timestamp := none
    is_sidechain := none
    is_meta := none
    summary := none
    tool_use := none
    tool_use_result := none
    content := some (Json.str "hi")
    raw_tool_use_probe := false
    raw_stderr_probe := false }

/-- A progress record with a sessionId. -/
def progressRec : RawRec :=
  { message_type := "progress"
    session_id := some "s"
    timestamp := none
    is_sidechain := none
    is_meta := none
    summary := none
    tool_use := none
    tool_use_result := none
    content := none
    raw_tool_use_probe := false
    raw_stderr_probe := false }

/-- C10 counterexample: a file containing a system-excluded record with a
sessionId (which the claim says forces `total_messages` to EXCEED the
loader's count) and additionally a role-less user record.  Both counts are 1,
so the claimed strict inequality fails. -/
theorem c10_counterexample :
    stats_total_messages [Line.raw 3 roleLessUserRec, Line.raw 4 progressRec] = 1 ∧
    (run_extract fresh_extract_state
        [Line.raw 3 roleLessUserRec, Line.raw 4 progressRec]).message_count = 1 ∧
    ¬((run_extract fresh_extract_state
          [Line.raw 3 roleLessUserRec, Line.raw 4 progressRec]).message_count <
        stats_total_messages [Line.raw 3 roleLessUserRec, Line.raw 4 progressRec]) ∧
    system_or_meta_with_ids (Line.raw 4 progressRec) = true := by
  refine ⟨rfl, rfl, by decide, rfl⟩

/-- C10 (amended): when every record of the file decodes under the
aggregator's full decoder, the loader's message count never exceeds the
aggregator's `total_messages`, and it is STRICTLY smaller as soon as the
file contains a system-excluded or meta record carrying a sessionId or
timestamp. -/
theorem c10_amended (lines : List Line) (h4 : ∀ l ∈ lines, all_lvl4 l = true) :
    (run_extract fresh_extract_state lines).message_count ≤ stats_total_messages lines ∧
    ((∃ l, l ∈ lines ∧ system_or_meta_with_ids l = true) →
      (run_extract fresh_extract_state lines).message_count < stats_total_messages lines) := by
  rw [stats_total_messages, run_extract_count_lvl4 lines h4 fresh_extract_state]
  have hz : fresh_extract_state.message_count = 0 := rfl
  rw [hz, Nat.zero_add]
  constructor
  · exact List.countP_mono_left (fun l hl => loader_le_stats_line l (h4 l hl))
  · rintro ⟨l, hl, hw⟩
    obtain ⟨hq, hp⟩ := witness_line_props l (h4 l hl) hw
    exact countP_lt_of_witness _ _ lines
      (fun a ha => loader_le_stats_line a (h4 a ha)) ⟨l, hl, hq, hp⟩

/-- C10 witness: with both records fully decodable, the loader count (1) is
strictly below the aggregator count (2). -/
theorem c10_amended_witness :
    (run_extract fresh_extract_state
        [Line.raw 4 progressRec, Line.raw 4 sessionedUserRec]).message_count <
      stats_total_messages [Line.raw 4 progressRec, Line.raw 4 sessionedUserRec] :=
  (c10_amended [Line.raw 4 progressRec, Line.raw 4 sessionedUserRec] (by decide)).2
    ⟨Line.raw 4 progressRec, List.mem_cons_self _ _, by decide⟩
